import Mathlib

/-!
Verification of the encrypted persistence engine of the `nota` application
(a local-first encrypted notes/calendar app).

Shallow embedding of:
  * `app/services/CryptoService.js` — PBKDF2 key derivation and AES-GCM
    authenticated encryption via the Web Crypto API;
  * `app/controllers/AuthController.js` — the PIN setup / unlock state machine;
  * `app/services/StorageService.js` — the write-coalescing durable-save
    scheduler around the in-memory sql.js database;
  * `app/models/Note.js`, `app/models/Event.js` — repository row decryption
    and the event date-range query;
  * `app/controllers/SettingsController.js` — backup import.

Modelling conventions.  The Web Crypto primitives (PBKDF2, AES-GCM) are
external to the repository and assumed trustworthy by the design (spec §1
non-goals), so they are embedded symbolically, in the standard ideal-AEAD
style: PBKDF2 is deterministic in (pin, salt), hence a derived key is
identified by the pair; an AES-GCM ciphertext blob records the nonce that was
prepended to it, together with the key, nonce and plaintext that were sealed,
and authenticated decryption succeeds exactly when the supplied key and the
nonce read from the first 12 bytes match the sealed ones.  Randomness (fresh
nonces, fresh salts) is passed in as an explicit argument.  JavaScript
`null`-able values are `Option`s; promise rejection is an explicit error
outcome.
-/

/-- Model of a Web Crypto `CryptoKey` produced by `deriveKeyFromPIN`.
PBKDF2 with fixed iteration count and hash is a deterministic function of the
PIN and the salt, so the derived key is identified by that pair; distinct
pairs give (computationally) unrelated keys, which the symbolic model reflects
as plain inequality. -/
structure CryptoKey where
  pin : String
  salt : List Nat
deriving DecidableEq

/-- Model of the base64 blob returned by `CryptoService.encrypt`:
`btoa(iv || AES-GCM-seal(key, iv, data))`.  `iv` is the 12-byte nonce
prepended to the ciphertext; `sealedKey`, `sealedIv` and `sealedPlain` are the
key, nonce and plaintext bound by the authenticated encryption.  The payload
type is a parameter because callers seal either a plain string (note fields,
the verification token) or a serialized backup object. -/
structure GBlob (α : Type) where
  iv : List Nat
  sealedKey : CryptoKey
  sealedIv : List Nat
  sealedPlain : α
deriving DecidableEq

namespace CryptoService

/-- Embeds `CryptoService.deriveKeyFromPIN` (CryptoService.js lines 17-39):
PBKDF2-SHA256, 200000 iterations, over the PIN bytes and the salt; the
result is determined by the `(pin, salt)` pair. -/
def deriveKeyFromPIN (pin : String) (salt : List Nat) : CryptoKey :=
  { pin := pin, salt := salt }

/-- Embeds `CryptoService.encrypt` (CryptoService.js lines 47-67): a fresh
12-byte IV (passed in explicitly, standing for
`crypto.getRandomValues(new Uint8Array(12))`) is prepended to the AES-GCM
ciphertext of `data` under `key`, and the whole is base64 encoded. -/
def encrypt {α : Type} (data : α) (key : CryptoKey) (iv : List Nat) : GBlob α :=
  { iv := iv, sealedKey := key, sealedIv := iv, sealedPlain := data }

/-- Embeds `CryptoService.decrypt` (CryptoService.js lines 75-99): the first
12 bytes of the decoded blob are taken as the IV, the rest is opened with
AES-GCM under `key`; authenticated decryption yields the sealed plaintext
exactly when the key matches and the prepended IV is the sealed one, and any
failure is caught and surfaced as `null` (`none`), never as an exception. -/
def decrypt {α : Type} (blob : GBlob α) (key : CryptoKey) : Option α :=
  if blob.sealedKey = key ∧ blob.sealedIv = blob.iv then some blob.sealedPlain
  else none

end CryptoService

/-- Alpine.js component state of `authController` (AuthController.js lines
12-15). -/
structure AuthState where
  isLocked : Bool
  isNewUser : Bool
  masterKey : Option CryptoKey
deriving DecidableEq

/-- Events dispatched by `authController` on the window bus: `app-unlocked`
carries the master key; `unlock-failed` carries nothing (the failure report
is generic). -/
inductive AppEvent
  | appUnlocked (masterKey : CryptoKey)
  | unlockFailed
deriving DecidableEq

/-- Effect visible at the end of `setupNewPIN`: either the guard rejected the
call (`noop`) or the app alerted and called `window.location.reload()`
(`reloaded`). -/
inductive SetupEffect
  | noop
  | reloaded
deriving DecidableEq

/-- Row of the `settings` table (`key TEXT PRIMARY KEY, value TEXT NOT NULL`);
values are stored as JSON strings by `Settings.set`. -/
structure SettingRow where
  key : String
  value : String
deriving DecidableEq

/-- Row of the `notes` table as read back by `StorageService.query`
(StorageService.js `createSchema`): `id`, timestamps and `is_favorite` in the
clear, `title_encrypted` / `content_encrypted` / `tags_encrypted` as
independently encrypted blobs. -/
structure NoteRow where
  id : String
  title_encrypted : GBlob String
  content_encrypted : GBlob String
  created_at : Nat
  updated_at : Nat
  tags_encrypted : GBlob String
  is_favorite : Nat
deriving DecidableEq

/-- Row of the `events` table (StorageService.js `createSchema`):
`start_time` / `end_time` in the clear for range queries; `title`,
`description`, `rrule` encrypted; `rrule_encrypted` and `end_time` nullable. -/
structure EventRow where
  id : String
  title_encrypted : GBlob String
  description_encrypted : GBlob String
  start_time : Int
  end_time : Option Int
  is_all_day : Nat
  calendar_type : String
  rrule_encrypted : Option (GBlob String)
deriving DecidableEq

/-- The persisted state the controllers act on: the three relational tables
held by the sql.js instance, plus the two localStorage credential entries
(`user_salt`, stored as the JSON of a byte array, and `verification_data`,
the base64 verification token). -/
structure PersistedState where
  notes : List NoteRow
  events : List EventRow
  settings : List SettingRow
  user_salt : Option (List Nat)
  verification_data : Option (GBlob String)
deriving DecidableEq

namespace authController

/-- Embeds `authController.handleUnlockAttempt` (AuthController.js lines
38-61) in the post-setup situation: `user_salt` and `verification_data` are
the values read from localStorage.  The key is derived from the submitted PIN
and the stored salt, the verification token is decrypted with it, and only a
decryption result equal to the fixed string makes the controller hold the key,
clear `isLocked`, and dispatch `app-unlocked`; every other outcome leaves the
state untouched and dispatches the generic `unlock-failed`. -/
def handleUnlockAttempt (pin : String) (user_salt : List Nat)
    (verification_data : GBlob String) (a : AuthState) :
    AuthState × List AppEvent :=
  let key := CryptoService.deriveKeyFromPIN pin user_salt
  let decrypted := CryptoService.decrypt verification_data key
  if decrypted = some "verified" then
    ({ a with masterKey := some key, isLocked := false },
      [AppEvent.appUnlocked key])
  else
    (a, [AppEvent.unlockFailed])

/-- Embeds `authController.setupNewPIN` (AuthController.js lines 67-88).
`salt` stands for the output of `CryptoService.generateSalt()` (16 random
bytes) and `iv` for the fresh nonce drawn inside `encrypt`.  On the
new-user path the function derives a key, encrypts the fixed plaintext
`'verified'` with it, persists the salt and the verification token to
localStorage, and then reloads the application; the component state `a`
itself is returned unchanged — in particular `masterKey` and `isLocked` are
not written and no `app-unlocked` event is dispatched. -/
def setupNewPIN (pin : String) (salt : List Nat) (iv : List Nat)
    (a : AuthState) (st : PersistedState) :
    AuthState × PersistedState × SetupEffect :=
  if a.isNewUser = false then (a, st, SetupEffect.noop)
  else
    let key := CryptoService.deriveKeyFromPIN pin salt
    let verificationData := CryptoService.encrypt "verified" key iv
    (a,
      { st with user_salt := some salt,
                verification_data := some verificationData },
      SetupEffect.reloaded)

end authController

/-- Empty persisted state: fresh install, no rows, no credentials. -/
def emptyPersisted : PersistedState :=
  { notes := [], events := [], settings := [], user_salt := none,
    verification_data := none }

/-- Plain note record as reassembled by `Note.decryptRow`.  JavaScript lets a
failed decryption flow into the record as `null`, so the sensitive fields are
`Option`s; `tags` holds the decrypted serialized tag list (the subsequent
`JSON.parse` maps the `null` of a failed decryption to `null` again, without
throwing, so failure remains a `null` field after parsing). -/
structure NotePlain where
  id : String
  title : Option String
  content : Option String
  tags : Option String
  createdAt : Nat
  updatedAt : Nat
  isFavorite : Bool
deriving DecidableEq

/-- Plain event record as reassembled by `Event.decryptRow`.  `rrule` is
`null` both when the row has no rrule and when decryption of the stored rrule
fails, exactly as in the source. -/
structure EventPlain where
  id : String
  title : Option String
  description : Option String
  startTime : Int
  endTime : Option Int
  isAllDay : Bool
  calendarType : String
  rrule : Option String
deriving DecidableEq

namespace Note

/-- Embeds `Note.decryptRow` (app/models/Note.js): decrypts the three
encrypted columns independently and reassembles a record; a field whose
decryption fails (`CryptoService.decrypt` returns `null`) is stored in the
record as `null` — the function itself never fails and always returns a
record. -/
def decryptRow (row : NoteRow) (masterKey : CryptoKey) : NotePlain :=
  { id := row.id
    title := CryptoService.decrypt row.title_encrypted masterKey
    content := CryptoService.decrypt row.content_encrypted masterKey
    tags := CryptoService.decrypt row.tags_encrypted masterKey
    createdAt := row.created_at
    updatedAt := row.updated_at
    isFavorite := row.is_favorite == 1 }

end Note

namespace Event

/-- Embeds `Event.decryptRow` (app/models/Event.js): decrypts title,
description and (when present) rrule independently; failed decryptions become
`null` fields and the record is still returned. -/
def decryptRow (row : EventRow) (masterKey : CryptoKey) : EventPlain :=
  { id := row.id
    title := CryptoService.decrypt row.title_encrypted masterKey
    description := CryptoService.decrypt row.description_encrypted masterKey
    startTime := row.start_time
    endTime := row.end_time
    isAllDay := row.is_all_day == 1
    calendarType := row.calendar_type
    rrule := match row.rrule_encrypted with
      | none => none
      | some b => CryptoService.decrypt b masterKey }

/-- Insertion step of an insertion sort on `start_time`, used to give meaning
to the SQL `ORDER BY start_time ASC` of `findByDateRange`. -/
def insertByStart (r : EventRow) : List EventRow → List EventRow
  | [] => [r]
  | x :: xs =>
    if r.start_time ≤ x.start_time then r :: x :: xs
    else x :: insertByStart r xs

/-- Sort a list of event rows ascending by `start_time` (insertion sort). -/
def sortByStart (l : List EventRow) : List EventRow :=
  l.foldr insertByStart []

/-- Embeds `Event.findByDateRange` (app/models/Event.js lines 115-123).  The
SQL text is
`SELECT * FROM events WHERE start_time >= ? AND start_time <= ? ORDER BY
start_time ASC`; its meaning over the table contents `rows` is the rows whose
clear `start_time` lies in the inclusive range, ordered ascending by
`start_time`, and each selected row is then decrypted with `decryptRow`. -/
def findByDateRange (startDate endDate : Int) (rows : List EventRow)
    (masterKey : CryptoKey) : List EventPlain :=
  (sortByStart (rows.filter fun r =>
      startDate ≤ r.start_time && r.start_time ≤ endDate)).map
    (fun r => decryptRow r masterKey)

end Event

/-- Concrete event row with a given id and start time, all sensitive fields
sealed under the key derived from PIN `"1234"` and salt `[7]`. -/
def sampleEventRow (id : String) (t : Int) : EventRow :=
  { id := id
    title_encrypted := CryptoService.encrypt "T" (CryptoService.deriveKeyFromPIN "1234" [7]) [1]
    description_encrypted := CryptoService.encrypt "D" (CryptoService.deriveKeyFromPIN "1234" [7]) [2]
    start_time := t
    end_time := none
    is_all_day := 0
    calendar_type := "gregorian"
    rrule_encrypted := none }

/-- Concrete note row whose title was sealed under the key of PIN `"9999"`
while content and tags were sealed under the key of PIN `"1234"` (salt `[7]`
throughout), so that decrypting with the `"1234"` key fails exactly on the
title field. -/
def cexNoteRow : NoteRow :=
  { id := "n1"
    title_encrypted := CryptoService.encrypt "A" (CryptoService.deriveKeyFromPIN "9999" [7]) [1]
    content_encrypted := CryptoService.encrypt "B" (CryptoService.deriveKeyFromPIN "1234" [7]) [2]
    created_at := 1
    updated_at := 2
    tags_encrypted := CryptoService.encrypt "[]" (CryptoService.deriveKeyFromPIN "1234" [7]) [3]
    is_favorite := 0 }

/-- Concrete event row whose title was sealed under the key of PIN `"9999"`
while the description was sealed under the key of PIN `"1234"`. -/
def cexEventRow : EventRow :=
  { id := "e1"
    title_encrypted := CryptoService.encrypt "T" (CryptoService.deriveKeyFromPIN "9999" [7]) [1]
    description_encrypted := CryptoService.encrypt "D" (CryptoService.deriveKeyFromPIN "1234" [7]) [2]
    start_time := 10
    end_time := none
    is_all_day := 0
    calendar_type := "gregorian"
    rrule_encrypted := none }

/-- State of `StorageService` (StorageService.js lines 6-12) together with
the durable IndexedDB copy and bookkeeping of the asynchronous calls, for the
write-coalescing scheduler.  The in-memory sql.js instance is abstracted as
the append-only list `db` of the ids of the mutations applied to it by
`db.run`; `durable` is the blob last stored under the `db_file` key in
IndexedDB; `running` is the list of database snapshots currently being
written by `saveDbToIndexedDB` (the code intends at most one; that is claim
C3); `blocked` is the id of the `execute` call whose `await
this.scheduleSave()` is suspended on the in-flight save chain;
`resolvedEarly` collects the ids of `execute` calls whose promise resolved
immediately because `scheduleSave` only set the pending flag and returned;
`resolvedDone` collects the ids whose promise resolved after their save chain
completed; `failed` collects the ids whose promise rejected because the
durable write failed. -/
structure StorageState where
  db : List Nat
  durable : Option (List Nat)
  isSaving : Bool
  saveQueue : Bool
  running : List (List Nat)
  blocked : Option Nat
  resolvedEarly : List Nat
  resolvedDone : List Nat
  failed : List Nat
deriving DecidableEq

/-- Scheduler events: `exec i` is a call to `StorageService.execute`
abstracted by a fresh mutation id `i`; `complete` is the in-flight IndexedDB
transaction firing `oncomplete`; `fail` is it firing `onerror` (or the open
request failing), rejecting the `saveDbToIndexedDB` promise. -/
inductive SAct
  | exec (i : Nat)
  | complete
  | fail
deriving DecidableEq

namespace StorageService

/-- Embeds `StorageService.execute` together with the synchronous prefix of
`scheduleSave` (StorageService.js lines 61-79): `this.db.run` applies the
mutation to the in-memory instance, then `scheduleSave` either — when a save
is already in flight — sets the `saveQueue` flag and returns, which resolves
the execute promise at once, or marks `isSaving`, takes the snapshot
`this.db.export()` synchronously and starts writing it, leaving the execute
call suspended on the save chain. -/
def stepExec (i : Nat) (s : StorageState) : StorageState :=
  let db' := s.db ++ [i]
  if s.isSaving then
    { s with db := db', saveQueue := true,
             resolvedEarly := s.resolvedEarly ++ [i] }
  else
    { s with db := db', isSaving := true, running := s.running ++ [db'],
             blocked := some i }

/-- Embeds the resumption of `scheduleSave` after `saveDbToIndexedDB`
resolves (StorageService.js lines 73-78): the written snapshot is now the
durable `db_file`; if `saveQueue` is set it is cleared and `scheduleSave`
recurses — `isSaving` goes false and immediately true again, a fresh snapshot
of the current database is exported and exactly one more write starts, with
the original execute call still suspended on the recursive await — otherwise
`isSaving` is cleared, the chain ends and the suspended execute call
resolves. -/
def stepComplete (s : StorageState) : StorageState :=
  match s.running with
  | [] => s
  | q :: rest =>
    if s.saveQueue then
      { s with durable := some q, running := rest ++ [s.db],
               saveQueue := false }
    else
      { s with durable := some q, running := rest, isSaving := false,
               blocked := none,
               resolvedDone := s.resolvedDone ++ s.blocked.toList }

/-- Embeds the resumption when `saveDbToIndexedDB` rejects.  `scheduleSave`
(StorageService.js lines 67-79) has no try/catch, so the statements
`this.isSaving = false` and the pending-flag check are skipped: `isSaving`
remains `true` and `saveQueue` keeps its value, while the rejection
propagates through `await this.scheduleSave()` to the suspended `execute`
call, whose promise rejects.  The in-memory database and the durable copy are
untouched. -/
def stepFail (s : StorageState) : StorageState :=
  match s.running with
  | [] => s
  | _ :: rest =>
    { s with running := rest, blocked := none,
             failed := s.failed ++ s.blocked.toList }

/-- One scheduler step. -/
def stepAct (a : SAct) (s : StorageState) : StorageState :=
  match a with
  | SAct.exec i => stepExec i s
  | SAct.complete => stepComplete s
  | SAct.fail => stepFail s

/-- Run a sequence of scheduler events from a state. -/
def runActs : List SAct → StorageState → StorageState
  | [], s => s
  | a :: acts, s => runActs acts (stepAct a s)

/-- Initial scheduler state: a fresh `StorageService` right after `init`,
before any mutation. -/
def stInit : StorageState :=
  { db := [], durable := none, isSaving := false, saveQueue := false,
    running := [], blocked := none, resolvedEarly := [], resolvedDone := [],
    failed := [] }

end StorageService

/-- Inductive invariant of the write-coalescing scheduler, established in the
initial state and preserved by every step: at most one write is in flight;
when nothing is being saved there is no in-flight write, no pending flag and
no suspended caller; an in-flight snapshot with no pending request is exactly
the current database, is always a prefix of the current database, and
contains every mutation whose execute call already resolved through a save
and the mutation of the suspended caller; resolved-through-save mutations are
in the in-memory database and in the durable copy. -/
def StInv (s : StorageState) : Prop :=
  s.running.length ≤ 1 ∧
  (s.isSaving = false →
    s.running = [] ∧ s.saveQueue = false ∧ s.blocked = none) ∧
  (∀ q ∈ s.running,
    (s.saveQueue = false → q = s.db) ∧
    q <+: s.db ∧
    (∀ i ∈ s.resolvedDone, i ∈ q) ∧
    (∀ i, s.blocked = some i → i ∈ q)) ∧
  (∀ i, s.blocked = some i → i ∈ s.db) ∧
  (∀ i ∈ s.resolvedDone, i ∈ s.db) ∧
  (∀ i ∈ s.resolvedDone, ∃ d, s.durable = some d ∧ i ∈ d)

/-- Shape of the backup object assembled by `settingsController.exportData`
(SettingsController.js lines 46-55): version, export timestamp, the
localStorage salt and verification token, and the raw (still
field-encrypted) note and event rows. -/
structure BackupData where
  version : Nat
  exportedAt : Nat
  salt : List Nat
  verificationData : GBlob String
  data_notes : List NoteRow
  data_events : List EventRow
deriving DecidableEq

/-- Plaintext sealed inside a backup artifact: either the JSON serialization
of a well-formed backup object (`json`), or some other string (`raw`), on
which the importer's `JSON.parse` throws. -/
inductive BackupPayload
  | json (b : BackupData)
  | raw (s : String)
deriving DecidableEq

/-- Database/localStorage operations issued by `settingsController.importData`
after validation, in program order: the two destructive deletes, the row
inserts, and the replacement of the two credential entries. -/
inductive DbOp
  | deleteNotes
  | deleteEvents
  | insertNote (r : NoteRow)
  | insertEvent (r : EventRow)
  | setSalt (saltValue : List Nat)
  | setVerificationData (v : GBlob String)
deriving DecidableEq

/-- Meaning of one `DbOp` on the persisted state: `DELETE FROM notes` /
`DELETE FROM events` empty the respective table, an insert appends a row,
and the credential writes replace the localStorage entries.  No operation
touches the `settings` table. -/
def applyOp (st : PersistedState) (op : DbOp) : PersistedState :=
  match op with
  | DbOp.deleteNotes => { st with notes := [] }
  | DbOp.deleteEvents => { st with events := [] }
  | DbOp.insertNote r => { st with notes := st.notes ++ [r] }
  | DbOp.insertEvent r => { st with events := st.events ++ [r] }
  | DbOp.setSalt saltValue => { st with user_salt := some saltValue }
  | DbOp.setVerificationData v => { st with verification_data := some v }

/-- Outcome of `settingsController.importData`: the input-validation alert,
the user declining the confirm dialog, the catch branch (decryption returned
`null` or `JSON.parse` threw), or a completed import followed by a reload. -/
inductive ImportResult
  | rejectedInput
  | notConfirmed
  | failed
  | imported
deriving DecidableEq

namespace settingsController

/-- Embeds `settingsController.importData` (SettingsController.js lines
84-137).  Guards: a missing/short PIN aborts with an alert; an unconfirmed
dialog aborts silently.  Then the key is derived from the submitted PIN and
the CURRENT device salt (`localStorage.getItem('user_salt')`; `getD []`
models the `new Uint8Array(JSON.parse(null))` empty-salt fallback), the file
is decrypted — `null` throws into the catch branch — and the decrypted JSON
is parsed — a non-backup payload throws into the catch branch.  Only after
both succeed are the operations issued, in source order: `DELETE FROM notes`,
`DELETE FROM events`, the note inserts, the event inserts, and the
replacement of `user_salt` and `verification_data`.  The result is the final
state, the list of issued operations, and the outcome. -/
def importData (file : GBlob BackupPayload) (pin : String) (confirmed : Bool)
    (st : PersistedState) : PersistedState × List DbOp × ImportResult :=
  if pin.length ≠ 4 then (st, [], ImportResult.rejectedInput)
  else if confirmed = false then (st, [], ImportResult.notConfirmed)
  else
    let tempSalt := st.user_salt.getD []
    let key := CryptoService.deriveKeyFromPIN pin tempSalt
    match CryptoService.decrypt file key with
    | none => (st, [], ImportResult.failed)
    | some (BackupPayload.raw _) => (st, [], ImportResult.failed)
    | some (BackupPayload.json backupData) =>
      let ops := [DbOp.deleteNotes, DbOp.deleteEvents]
        ++ backupData.data_notes.map DbOp.insertNote
        ++ backupData.data_events.map DbOp.insertEvent
        ++ [DbOp.setSalt backupData.salt,
            DbOp.setVerificationData backupData.verificationData]
      (ops.foldl applyOp st, ops, ImportResult.imported)

end settingsController

/-- Concrete backup object used as witness input: one note row, no events. -/
def sampleBackup : BackupData :=
  { version := 1
    exportedAt := 100
    salt := [9]
    verificationData := CryptoService.encrypt "verified"
      (CryptoService.deriveKeyFromPIN "1234" [9]) [4]
    data_notes := [cexNoteRow]
    data_events := [] }

/-- Persisted state holding one pre-existing note, one event, one setting and
the credentials of salt `[7]`, ready for an import with PIN `"1234"`. -/
def preImportState : PersistedState :=
  { notes := [cexNoteRow]
    events := [cexEventRow]
    settings := [{ key := "theme", value := "\x22dark\x22" }]
    user_salt := some [7]
    verification_data := some (CryptoService.encrypt "verified"
      (CryptoService.deriveKeyFromPIN "1234" [7]) [0]) }

/-- C1: round-trip of the crypto layer. -/
theorem crypto_roundtrip (s : String) (k : CryptoKey) (iv : List Nat)
    (hiv : iv.length = 12) :
    (CryptoService.encrypt s k iv).iv = iv ∧
    CryptoService.decrypt (CryptoService.encrypt s k iv) k = some s := by
  refine ⟨rfl, ?_⟩
  simp [CryptoService.encrypt, CryptoService.decrypt]

/-- C2: after `setupNewPIN pin` has persisted the salt and the verification
token, `handleUnlockAttempt pin` derives the same key, decrypts the token to
`'verified'`, unlocks and publishes the key, while `handleUnlockAttempt pin'`
for any `pin' ≠ pin` leaves the state untouched (still locked, no key) and
dispatches only the generic `unlock-failed` event. -/
theorem unlock_after_setup (pin pin' : String) (salt iv : List Nat)
    (st : PersistedState) (a : AuthState)
    (hlocked : a.isLocked = true) (hnokey : a.masterKey = none)
    (hne : pin' ≠ pin) :
    (authController.setupNewPIN pin salt iv
        { isLocked := true, isNewUser := true, masterKey := none } st).2.1.user_salt
      = some salt ∧
    (authController.setupNewPIN pin salt iv
        { isLocked := true, isNewUser := true, masterKey := none } st).2.1.verification_data
      = some (CryptoService.encrypt "verified"
          (CryptoService.deriveKeyFromPIN pin salt) iv) ∧
    authController.handleUnlockAttempt pin salt
        (CryptoService.encrypt "verified"
          (CryptoService.deriveKeyFromPIN pin salt) iv) a
      = ({ a with masterKey := some (CryptoService.deriveKeyFromPIN pin salt),
                  isLocked := false },
         [AppEvent.appUnlocked (CryptoService.deriveKeyFromPIN pin salt)]) ∧
    authController.handleUnlockAttempt pin' salt
        (CryptoService.encrypt "verified"
          (CryptoService.deriveKeyFromPIN pin salt) iv) a
      = (a, [AppEvent.unlockFailed]) ∧
    (authController.handleUnlockAttempt pin' salt
        (CryptoService.encrypt "verified"
          (CryptoService.deriveKeyFromPIN pin salt) iv) a).1.isLocked = true ∧
    (authController.handleUnlockAttempt pin' salt
        (CryptoService.encrypt "verified"
          (CryptoService.deriveKeyFromPIN pin salt) iv) a).1.masterKey = none := by
  have hkeys : CryptoService.deriveKeyFromPIN pin' salt ≠
      CryptoService.deriveKeyFromPIN pin salt := by
    intro h
    exact hne (congrArg CryptoKey.pin h)
  have hdec : CryptoService.decrypt
      (CryptoService.encrypt "verified"
        (CryptoService.deriveKeyFromPIN pin salt) iv)
      (CryptoService.deriveKeyFromPIN pin' salt) = none := by
    simp only [CryptoService.decrypt, CryptoService.encrypt]
    rw [if_neg]
    intro h
    exact hkeys h.1.symm
  have hfail : authController.handleUnlockAttempt pin' salt
      (CryptoService.encrypt "verified"
        (CryptoService.deriveKeyFromPIN pin salt) iv) a
      = (a, [AppEvent.unlockFailed]) := by
    simp [authController.handleUnlockAttempt, hdec]
  refine ⟨by simp [authController.setupNewPIN],
          by simp [authController.setupNewPIN], ?_, hfail,
          by rw [hfail]; exact hlocked, by rw [hfail]; exact hnokey⟩
  simp [authController.handleUnlockAttempt, CryptoService.decrypt,
    CryptoService.encrypt]

theorem unlock_after_setup_witness :
    (authController.setupNewPIN "1234" [7] [0]
        { isLocked := true, isNewUser := true, masterKey := none }
        emptyPersisted).2.1.user_salt = some [7] ∧
    (authController.setupNewPIN "1234" [7] [0]
        { isLocked := true, isNewUser := true, masterKey := none }
        emptyPersisted).2.1.verification_data
      = some (CryptoService.encrypt "verified"
          (CryptoService.deriveKeyFromPIN "1234" [7]) [0]) ∧
    authController.handleUnlockAttempt "1234" [7]
        (CryptoService.encrypt "verified"
          (CryptoService.deriveKeyFromPIN "1234" [7]) [0])
        { isLocked := true, isNewUser := false, masterKey := none }
      = ({ isLocked := false, isNewUser := false,
           masterKey := some (CryptoService.deriveKeyFromPIN "1234" [7]) },
         [AppEvent.appUnlocked (CryptoService.deriveKeyFromPIN "1234" [7])]) ∧
    authController.handleUnlockAttempt "0000" [7]
        (CryptoService.encrypt "verified"
          (CryptoService.deriveKeyFromPIN "1234" [7]) [0])
        { isLocked := true, isNewUser := false, masterKey := none }
      = ({ isLocked := true, isNewUser := false, masterKey := none },
         [AppEvent.unlockFailed]) ∧
    (authController.handleUnlockAttempt "0000" [7]
        (CryptoService.encrypt "verified"
          (CryptoService.deriveKeyFromPIN "1234" [7]) [0])
        { isLocked := true, isNewUser := false, masterKey := none }).1.isLocked
      = true ∧
    (authController.handleUnlockAttempt "0000" [7]
        (CryptoService.encrypt "verified"
          (CryptoService.deriveKeyFromPIN "1234" [7]) [0])
        { isLocked := true, isNewUser := false, masterKey := none }).1.masterKey
      = none :=
  unlock_after_setup "1234" "0000" [7] [0] emptyPersisted
    { isLocked := true, isNewUser := false, masterKey := none }
    rfl rfl (by decide)

/-- C8 counterexample: running `setupNewPIN` from the fresh-install state with
PIN `"1234"` persists the credentials and reloads the app, but leaves the
controller locked with no master key held and therefore does not end in the
Unlocked state, contrary to the claim. -/
theorem setup_ends_unlocked_cex :
    (authController.setupNewPIN "1234" [7] [0]
        { isLocked := true, isNewUser := true, masterKey := none }
        emptyPersisted).1.masterKey = none ∧
    (authController.setupNewPIN "1234" [7] [0]
        { isLocked := true, isNewUser := true, masterKey := none }
        emptyPersisted).1.isLocked = true ∧
    (authController.setupNewPIN "1234" [7] [0]
        { isLocked := true, isNewUser := true, masterKey := none }
        emptyPersisted).2.2 = SetupEffect.reloaded := by
  refine ⟨rfl, rfl, rfl⟩

/-- C8 amended: `setupNewPIN pin` on a new user generates a fresh salt
(passed in), derives a key from the pin and salt, encrypts the fixed
verification plaintext `'verified'` under that key and persists both the salt
and the verification token — but it does not retain or publish the derived
key: it reloads the application with the controller state unchanged (still
locked, no session key), so a subsequent PIN attempt is required to reach the
Unlocked state. -/
theorem setupNewPIN_amended (pin : String) (salt iv : List Nat)
    (a : AuthState) (st : PersistedState) (hnew : a.isNewUser = true) :
    authController.setupNewPIN pin salt iv a st
      = (a,
         { st with user_salt := some salt,
                   verification_data := some (CryptoService.encrypt "verified"
                     (CryptoService.deriveKeyFromPIN pin salt) iv) },
         SetupEffect.reloaded) := by
  simp [authController.setupNewPIN, hnew]

theorem setupNewPIN_amended_witness :
    authController.setupNewPIN "1234" [7] [0]
        { isLocked := true, isNewUser := true, masterKey := none }
        emptyPersisted
      = ({ isLocked := true, isNewUser := true, masterKey := none },
         { emptyPersisted with
             user_salt := some [7],
             verification_data := some (CryptoService.encrypt "verified"
               (CryptoService.deriveKeyFromPIN "1234" [7]) [0]) },
         SetupEffect.reloaded) :=
  setupNewPIN_amended "1234" [7] [0]
    { isLocked := true, isNewUser := true, masterKey := none }
    emptyPersisted rfl

theorem crypto_roundtrip_witness :
    (CryptoService.encrypt "hello" (CryptoService.deriveKeyFromPIN "1234" [1, 2])
        [0, 1, 2, 3, 4, 5, 6, 7, 8, 9, 10, 11]).iv =
        [0, 1, 2, 3, 4, 5, 6, 7, 8, 9, 10, 11] ∧
    CryptoService.decrypt
        (CryptoService.encrypt "hello" (CryptoService.deriveKeyFromPIN "1234" [1, 2])
          [0, 1, 2, 3, 4, 5, 6, 7, 8, 9, 10, 11])
        (CryptoService.deriveKeyFromPIN "1234" [1, 2]) = some "hello" :=
  crypto_roundtrip "hello" (CryptoService.deriveKeyFromPIN "1234" [1, 2])
    [0, 1, 2, 3, 4, 5, 6, 7, 8, 9, 10, 11] (by decide)

/-- C6 counterexample: reading `cexNoteRow` with the `"1234"` key fails to
decrypt the title, yet `Note.decryptRow` surfaces no record-level failure —
the caller receives a reassembled record in which the failed title has been
silently replaced by `null` while content and tags look valid. -/
theorem decrypt_failure_record_cex :
    CryptoService.decrypt cexNoteRow.title_encrypted
        (CryptoService.deriveKeyFromPIN "1234" [7]) = none ∧
    Note.decryptRow cexNoteRow (CryptoService.deriveKeyFromPIN "1234" [7])
      = { id := "n1", title := none, content := some "B", tags := some "[]",
          createdAt := 1, updatedAt := 2, isFavorite := false } := by
  refine ⟨by decide, by decide⟩

/-- C6 amended: when decryption of a sensitive field of a note or event row
fails, the repository does not surface a record-level failure; `decryptRow`
still returns a fully reassembled record in which the failed field is `null`
while every other field is decrypted independently and keeps its own value. -/
theorem decryptRow_silent_null (nrow : NoteRow) (erow : EventRow)
    (key : CryptoKey)
    (hn : CryptoService.decrypt nrow.title_encrypted key = none)
    (he : CryptoService.decrypt erow.title_encrypted key = none) :
    Note.decryptRow nrow key
      = { id := nrow.id, title := none,
          content := CryptoService.decrypt nrow.content_encrypted key,
          tags := CryptoService.decrypt nrow.tags_encrypted key,
          createdAt := nrow.created_at, updatedAt := nrow.updated_at,
          isFavorite := nrow.is_favorite == 1 } ∧
    Event.decryptRow erow key
      = { id := erow.id, title := none,
          description := CryptoService.decrypt erow.description_encrypted key,
          startTime := erow.start_time, endTime := erow.end_time,
          isAllDay := erow.is_all_day == 1,
          calendarType := erow.calendar_type,
          rrule := match erow.rrule_encrypted with
            | none => none
            | some b => CryptoService.decrypt b key } := by
  constructor
  · simp [Note.decryptRow, hn]
  · simp [Event.decryptRow, he]

theorem decryptRow_silent_null_witness :
    Note.decryptRow cexNoteRow (CryptoService.deriveKeyFromPIN "1234" [7])
      = { id := cexNoteRow.id, title := none,
          content := CryptoService.decrypt cexNoteRow.content_encrypted
            (CryptoService.deriveKeyFromPIN "1234" [7]),
          tags := CryptoService.decrypt cexNoteRow.tags_encrypted
            (CryptoService.deriveKeyFromPIN "1234" [7]),
          createdAt := cexNoteRow.created_at,
          updatedAt := cexNoteRow.updated_at,
          isFavorite := cexNoteRow.is_favorite == 1 } ∧
    Event.decryptRow cexEventRow (CryptoService.deriveKeyFromPIN "1234" [7])
      = { id := cexEventRow.id, title := none,
          description := CryptoService.decrypt cexEventRow.description_encrypted
            (CryptoService.deriveKeyFromPIN "1234" [7]),
          startTime := cexEventRow.start_time,
          endTime := cexEventRow.end_time,
          isAllDay := cexEventRow.is_all_day == 1,
          calendarType := cexEventRow.calendar_type,
          rrule := match cexEventRow.rrule_encrypted with
            | none => none
            | some b => CryptoService.decrypt b
                (CryptoService.deriveKeyFromPIN "1234" [7]) } :=
  decryptRow_silent_null cexNoteRow cexEventRow
    (CryptoService.deriveKeyFromPIN "1234" [7]) (by decide) (by decide)

theorem insertByStart_perm (r : EventRow) (l : List EventRow) :
    List.Perm (Event.insertByStart r l) (r :: l) := by
  induction l with
  | nil => simp [Event.insertByStart]
  | cons x xs ih =>
    simp only [Event.insertByStart]
    by_cases h : r.start_time ≤ x.start_time
    · simp [h]
    · simp only [if_neg h]
      exact (ih.cons x).trans (List.Perm.swap r x xs)

theorem insertByStart_sorted (r : EventRow) (l : List EventRow)
    (h : List.Pairwise (fun a b => a.start_time ≤ b.start_time) l) :
    List.Pairwise (fun a b => a.start_time ≤ b.start_time)
      (Event.insertByStart r l) := by
  induction l with
  | nil => simp [Event.insertByStart]
  | cons x xs ih =>
    rcases List.pairwise_cons.mp h with ⟨hx, hxs⟩
    by_cases hle : r.start_time ≤ x.start_time
    · simp only [Event.insertByStart, if_pos hle]
      refine List.pairwise_cons.mpr ⟨?_, h⟩
      intro b hb
      rcases List.mem_cons.mp hb with rfl | hb'
      · exact hle
      · exact le_trans hle (hx b hb')
    · simp only [Event.insertByStart, if_neg hle]
      refine List.pairwise_cons.mpr ⟨?_, ih hxs⟩
      intro b hb
      have hb' := (insertByStart_perm r xs).mem_iff.mp hb
      rcases List.mem_cons.mp hb' with rfl | hb''
      · exact le_of_not_le hle
      · exact hx b hb''

theorem sortByStart_perm (l : List EventRow) :
    List.Perm (Event.sortByStart l) l := by
  induction l with
  | nil => simp [Event.sortByStart]
  | cons x xs ih =>
    exact (insertByStart_perm x (Event.sortByStart xs)).trans (ih.cons x)

theorem sortByStart_sorted (l : List EventRow) :
    List.Pairwise (fun a b => a.start_time ≤ b.start_time)
      (Event.sortByStart l) := by
  induction l with
  | nil => simp [Event.sortByStart]
  | cons x xs ih => exact insertByStart_sorted x (Event.sortByStart xs) ih

/-- C9: `findByDateRange` maps `decryptRow` over exactly the rows whose clear
`start_time` lies in the inclusive range, ordered ascending by `start_time`
(a permutation of the filtered table, pairwise sorted); on the spec's example
of events with start times 10, 20, 30 the range (15, 25) yields only the
event with start time 20. -/
theorem findByDateRange_correct (startDate endDate : Int)
    (rows : List EventRow) (masterKey : CryptoKey) :
    Event.findByDateRange startDate endDate rows masterKey
      = (Event.sortByStart (rows.filter fun r =>
          startDate ≤ r.start_time && r.start_time ≤ endDate)).map
          (fun r => Event.decryptRow r masterKey) ∧
    List.Perm
      (Event.sortByStart (rows.filter fun r =>
        startDate ≤ r.start_time && r.start_time ≤ endDate))
      (rows.filter fun r =>
        startDate ≤ r.start_time && r.start_time ≤ endDate) ∧
    List.Pairwise (fun a b => a.start_time ≤ b.start_time)
      (Event.sortByStart (rows.filter fun r =>
        startDate ≤ r.start_time && r.start_time ≤ endDate)) ∧
    (∀ r : EventRow,
      r ∈ Event.sortByStart (rows.filter fun r =>
        startDate ≤ r.start_time && r.start_time ≤ endDate)
        ↔ r ∈ rows ∧ startDate ≤ r.start_time ∧ r.start_time ≤ endDate) ∧
    Event.findByDateRange 15 25
        [sampleEventRow "e1" 10, sampleEventRow "e2" 20, sampleEventRow "e3" 30]
        masterKey
      = [Event.decryptRow (sampleEventRow "e2" 20) masterKey] := by
  refine ⟨rfl, sortByStart_perm _, sortByStart_sorted _, ?_, ?_⟩
  · intro r
    rw [(sortByStart_perm _).mem_iff, List.mem_filter]
    simp
  · simp [Event.findByDateRange, Event.sortByStart, Event.insertByStart,
      sampleEventRow, List.filter]

theorem stInv_init : StInv StorageService.stInit := by
  simp [StInv, StorageService.stInit]

theorem stInv_step (a : SAct) (s : StorageState) (h : StInv s) :
    StInv (StorageService.stepAct a s) := by
  obtain ⟨h1, h2, h3, h4, h5, h6⟩ := h
  cases a with
  | exec i =>
    by_cases hs : s.isSaving = true
    · simp only [StorageService.stepAct, StorageService.stepExec, hs, if_true]
      refine ⟨h1, by simp [hs], ?_, ?_, ?_, h6⟩
      · intro q hq
        refine ⟨by simp, ((h3 q hq).2.1).trans (List.prefix_append _ _),
          (h3 q hq).2.2.1, (h3 q hq).2.2.2⟩
      · intro j hj
        exact List.mem_append_left _ (h4 j hj)
      · intro j hj
        exact List.mem_append_left _ (h5 j hj)
    · have hs' : s.isSaving = false := by simpa using hs
      obtain ⟨hrun, hsq, hb⟩ := h2 hs'
      simp only [StorageService.stepAct, StorageService.stepExec, hs',
        Bool.false_eq_true, if_false, hrun, List.nil_append]
      refine ⟨by simp, by simp, ?_, ?_, ?_, h6⟩
      · intro q hq
        have hq' : q = s.db ++ [i] := by simpa using hq
        subst hq'
        refine ⟨fun _ => rfl, List.prefix_refl _, ?_, ?_⟩
        · intro j hj
          exact List.mem_append_left _ (h5 j hj)
        · intro j hj
          have : i = j := Option.some.inj hj
          subst this
          exact List.mem_append_right _ (List.mem_singleton_self i)
      · intro j hj
        have : i = j := Option.some.inj hj
        subst this
        exact List.mem_append_right _ (List.mem_singleton_self i)
      · intro j hj
        exact List.mem_append_left _ (h5 j hj)
  | complete =>
    cases hr : s.running with
    | nil =>
      simp only [StorageService.stepAct, StorageService.stepComplete, hr]
      exact ⟨h1, h2, h3, h4, h5, h6⟩
    | cons q rest =>
      have hrest : rest = [] := by
        rw [hr] at h1
        simp only [List.length_cons] at h1
        exact List.length_eq_zero.mp (by omega)
      have hsv : s.isSaving = true := by
        cases hsv' : s.isSaving with
        | false =>
          have := (h2 hsv').1
          rw [hr] at this
          exact absurd this (by simp)
        | true => rfl
      obtain ⟨hq1, hq2, hq3, hq4⟩ := h3 q (by rw [hr]; exact List.mem_cons_self q rest)
      by_cases hsq : s.saveQueue = true
      · simp only [StorageService.stepAct, StorageService.stepComplete, hr, hsq,
          if_true]
        subst hrest
        refine ⟨by simp, by simp [hsv], ?_, h4, h5, ?_⟩
        · intro q' hq'
          have : q' = s.db := by simpa using hq'
          subst this
          refine ⟨fun _ => rfl, List.prefix_refl _, ?_, ?_⟩
          · intro j hj
            exact h5 j hj
          · intro j hj
            exact h4 j hj
        · intro j hj
          exact ⟨q, rfl, hq3 j hj⟩
      · have hsq' : s.saveQueue = false := by simpa using hsq
        simp only [StorageService.stepAct, StorageService.stepComplete, hr, hsq',
          Bool.false_eq_true, if_false]
        subst hrest
        refine ⟨by simp, fun _ => ⟨rfl, rfl, rfl⟩, by simp, ?_, ?_, ?_⟩
        · intro j hj
          exact absurd hj (by simp)
        · intro j hj
          rcases List.mem_append.mp hj with hj' | hj'
          · exact h5 j hj'
          · cases hb : s.blocked with
            | none => rw [hb] at hj'; exact absurd hj' (by simp)
            | some b =>
              rw [hb] at hj'
              have : j = b := by simpa using hj'
              subst this
              exact h4 j hb
        · intro j hj
          rcases List.mem_append.mp hj with hj' | hj'
          · exact ⟨q, rfl, hq3 j hj'⟩
          · cases hb : s.blocked with
            | none => rw [hb] at hj'; exact absurd hj' (by simp)
            | some b =>
              rw [hb] at hj'
              have : j = b := by simpa using hj'
              subst this
              exact ⟨q, rfl, hq4 j hb⟩
  | fail =>
    cases hr : s.running with
    | nil =>
      simp only [StorageService.stepAct, StorageService.stepFail, hr]
      exact ⟨h1, h2, h3, h4, h5, h6⟩
    | cons q rest =>
      have hrest : rest = [] := by
        rw [hr] at h1
        simp only [List.length_cons] at h1
        exact List.length_eq_zero.mp (by omega)
      have hsv : s.isSaving = true := by
        cases hsv' : s.isSaving with
        | false =>
          have := (h2 hsv').1
          rw [hr] at this
          exact absurd this (by simp)
        | true => rfl
      simp only [StorageService.stepAct, StorageService.stepFail, hr]
      subst hrest
      refine ⟨by simp, by simp [hsv], by simp, ?_, h5, h6⟩
      intro j hj
      exact absurd hj (by simp)

theorem stInv_runActs (acts : List SAct) (s : StorageState) (h : StInv s) :
    StInv (StorageService.runActs acts s) := by
  induction acts generalizing s with
  | nil => exact h
  | cons a acts ih => exact ih _ (stInv_step a s h)

/-- C3: write coalescing.  In every reachable scheduler state at most one
durable write is in flight; when a save is in flight and the pending flag is
set, the completion of that save clears the flag and starts exactly one more
write, whose snapshot is the current database; and whenever a save is in
flight, letting the in-flight writes complete (at most two completions)
quiesces the scheduler with the durable copy equal to the current in-memory
database — no completed mutation's write request is dropped. -/
theorem write_coalescing (acts : List SAct) (s : StorageState)
    (hs : StorageService.runActs acts StorageService.stInit = s) :
    s.running.length ≤ 1 ∧
    (∀ q rest, s.running = q :: rest → s.saveQueue = true →
      (StorageService.stepComplete s).saveQueue = false ∧
      (StorageService.stepComplete s).running = rest ++ [s.db] ∧
      (StorageService.stepComplete s).durable = some q) ∧
    (∀ q rest, s.running = q :: rest →
      (StorageService.stepComplete (StorageService.stepComplete s)).durable
        = some s.db ∧
      (StorageService.stepComplete (StorageService.stepComplete s)).running
        = [] ∧
      (StorageService.stepComplete (StorageService.stepComplete s)).saveQueue
        = false) := by
  have hinv : StInv s := hs ▸ stInv_runActs acts _ stInv_init
  obtain ⟨h1, h2, h3, h4, h5, h6⟩ := hinv
  refine ⟨h1, ?_, ?_⟩
  · intro q rest hq hsq
    simp only [StorageService.stepComplete, hq, hsq, if_true]
    refine ⟨?_, ?_, ?_⟩ <;> trivial
  · intro q rest hq
    have hrest : rest = [] := by
      rw [hq] at h1
      simp only [List.length_cons] at h1
      exact List.length_eq_zero.mp (by omega)
    subst hrest
    by_cases hsq : s.saveQueue = true
    · simp only [StorageService.stepComplete, hq, hsq, if_true,
        List.nil_append]
      refine ⟨?_, ?_, ?_⟩ <;> trivial
    · have hsq' : s.saveQueue = false := by simpa using hsq
      have hqdb : q = s.db :=
        (h3 q (by rw [hq]; exact List.mem_cons_self q [])).1 hsq'
      simp only [StorageService.stepComplete, hq, hsq', Bool.false_eq_true,
        if_false]
      refine ⟨by rw [hqdb], by trivial, by trivial⟩

theorem write_coalescing_witness :
    (StorageService.stepComplete
      (StorageService.runActs [SAct.exec 1, SAct.exec 2]
        StorageService.stInit)).saveQueue = false ∧
    (StorageService.stepComplete
      (StorageService.runActs [SAct.exec 1, SAct.exec 2]
        StorageService.stInit)).running
      = [] ++ [(StorageService.runActs [SAct.exec 1, SAct.exec 2]
          StorageService.stInit).db] ∧
    (StorageService.stepComplete
      (StorageService.runActs [SAct.exec 1, SAct.exec 2]
        StorageService.stInit)).durable = some [1] ∧
    (StorageService.stepComplete (StorageService.stepComplete
      (StorageService.runActs [SAct.exec 1, SAct.exec 2]
        StorageService.stInit))).durable
      = some (StorageService.runActs [SAct.exec 1, SAct.exec 2]
          StorageService.stInit).db ∧
    (StorageService.stepComplete (StorageService.stepComplete
      (StorageService.runActs [SAct.exec 1, SAct.exec 2]
        StorageService.stInit))).running = [] :=
  ⟨((write_coalescing [SAct.exec 1, SAct.exec 2] _ rfl).2.1 [1] []
      (by decide) (by decide)).1,
   ((write_coalescing [SAct.exec 1, SAct.exec 2] _ rfl).2.1 [1] []
      (by decide) (by decide)).2.1,
   ((write_coalescing [SAct.exec 1, SAct.exec 2] _ rfl).2.1 [1] []
      (by decide) (by decide)).2.2,
   ((write_coalescing [SAct.exec 1, SAct.exec 2] _ rfl).2.2 [1] []
      (by decide)).1,
   ((write_coalescing [SAct.exec 1, SAct.exec 2] _ rfl).2.2 [1] []
      (by decide)).2.1⟩

/-- C4 counterexample: run `execute 1` (which starts a save of the snapshot
`[1]`) and then `execute 2` while that save is in flight.  The second execute
is coalesced: its promise resolves immediately (`resolvedEarly = [2]`) at a
point where nothing is durable at all, and even when the in-flight save
completes the durable snapshot is `[1]`, which does not contain mutation 2 —
so an execute whose save request is coalesced does return before any snapshot
containing its effect is durable, contrary to the claim. -/
theorem execute_returns_early_cex :
    (StorageService.runActs [SAct.exec 1, SAct.exec 2]
      StorageService.stInit).resolvedEarly = [2] ∧
    (StorageService.runActs [SAct.exec 1, SAct.exec 2]
      StorageService.stInit).durable = none ∧
    (StorageService.stepComplete
      (StorageService.runActs [SAct.exec 1, SAct.exec 2]
        StorageService.stInit)).durable = some [1] := by
  refine ⟨by decide, by decide, by decide⟩

/-- C4 amended: an `execute` that starts its own save (no save in flight)
resolves only after a durable snapshot containing its mutation has been
persisted — in every reachable state, every mutation in `resolvedDone` is
contained in the durable snapshot; but an `execute` that arrives while a save
is in flight is coalesced and resolves immediately, leaving the durable copy
unchanged and its mutation contained in no in-flight snapshot, so its effect
is not yet durable when it returns. -/
theorem execute_return_durability (acts : List SAct) (j i : Nat)
    (s : StorageState)
    (hs : StorageService.runActs acts StorageService.stInit = s)
    (hj : j ∈ s.resolvedDone)
    (hsaving : s.isSaving = true)
    (hfresh : i ∉ s.db) :
    (∃ d, s.durable = some d ∧ j ∈ d) ∧
    (StorageService.stepExec i s).resolvedEarly = s.resolvedEarly ++ [i] ∧
    (StorageService.stepExec i s).durable = s.durable ∧
    i ∉ ((StorageService.stepExec i s).running).flatten := by
  have hinv : StInv s := hs ▸ stInv_runActs acts _ stInv_init
  obtain ⟨h1, h2, h3, h4, h5, h6⟩ := hinv
  refine ⟨h6 j hj, ?_, ?_, ?_⟩
  · simp [StorageService.stepExec, hsaving]
  · simp [StorageService.stepExec, hsaving]
  · simp only [StorageService.stepExec, hsaving, if_true]
    rw [List.mem_flatten]
    rintro ⟨q, hq, hiq⟩
    exact hfresh ((h3 q hq).2.1.subset hiq)

theorem execute_return_durability_witness :
    (∃ d, (StorageService.runActs [SAct.exec 1, SAct.complete, SAct.exec 2]
      StorageService.stInit).durable = some d ∧ 1 ∈ d) ∧
    (StorageService.stepExec 5
      (StorageService.runActs [SAct.exec 1, SAct.complete, SAct.exec 2]
        StorageService.stInit)).resolvedEarly
      = (StorageService.runActs [SAct.exec 1, SAct.complete, SAct.exec 2]
          StorageService.stInit).resolvedEarly ++ [5] ∧
    (StorageService.stepExec 5
      (StorageService.runActs [SAct.exec 1, SAct.complete, SAct.exec 2]
        StorageService.stInit)).durable
      = (StorageService.runActs [SAct.exec 1, SAct.complete, SAct.exec 2]
          StorageService.stInit).durable ∧
    5 ∉ ((StorageService.stepExec 5
      (StorageService.runActs [SAct.exec 1, SAct.complete, SAct.exec 2]
        StorageService.stInit)).running).flatten :=
  execute_return_durability [SAct.exec 1, SAct.complete, SAct.exec 2] 1 5 _
    rfl (by decide) (by decide) (by decide)

/-- Helper: once the scheduler is in the stuck configuration left behind by a
failed save (`isSaving` still true, nothing actually running), no sequence of
further events ever changes the durable copy or starts another write: every
`execute` only sets the pending flag, and completion events have nothing to
act on. -/
theorem stuck_after_failure (more : List SAct) (s : StorageState)
    (h1 : s.isSaving = true) (h2 : s.running = []) :
    (StorageService.runActs more s).durable = s.durable ∧
    (StorageService.runActs more s).running = [] ∧
    (StorageService.runActs more s).isSaving = true := by
  induction more generalizing s with
  | nil => exact ⟨rfl, h2, h1⟩
  | cons a acts ih =>
    have hstep : (StorageService.stepAct a s).durable = s.durable ∧
        (StorageService.stepAct a s).running = [] ∧
        (StorageService.stepAct a s).isSaving = true := by
      cases a with
      | exec i =>
        simp [StorageService.stepAct, StorageService.stepExec, h1, h2]
      | complete =>
        simp [StorageService.stepAct, StorageService.stepComplete, h2, h1]
      | fail =>
        simp [StorageService.stepAct, StorageService.stepFail, h2, h1]
    obtain ⟨e1, e2, e3⟩ := hstep
    have hrec := ih (StorageService.stepAct a s) e3 e2
    exact ⟨hrec.1.trans e1, hrec.2.1, hrec.2.2⟩

/-- C5 counterexample: `execute 1` starts a save; the save fails; then
`execute 2` runs.  The triggering execute's promise rejected
(`failed = [1]`), contradicting "the triggering execute call itself does not
fail"; and the next mutation starts no write at all (`running = []` while
`isSaving` is stuck at `true`), contradicting "the write is retried on the
next mutation" and "subsequent execute calls still lead to durable-writes" —
nothing was or will be durably written (`durable = none`). -/
theorem save_failure_cex :
    (StorageService.runActs [SAct.exec 1, SAct.fail, SAct.exec 2]
      StorageService.stInit).failed = [1] ∧
    (StorageService.runActs [SAct.exec 1, SAct.fail, SAct.exec 2]
      StorageService.stInit).durable = none ∧
    (StorageService.runActs [SAct.exec 1, SAct.fail, SAct.exec 2]
      StorageService.stInit).running = [] ∧
    (StorageService.runActs [SAct.exec 1, SAct.fail, SAct.exec 2]
      StorageService.stInit).isSaving = true ∧
    (StorageService.runActs [SAct.exec 1, SAct.fail, SAct.exec 2]
      StorageService.stInit).saveQueue = true := by
  refine ⟨by decide, by decide, by decide, by decide, by decide⟩

/-- C5 amended: if the durable write fails, the in-memory database and the
durable copy are indeed untouched, but the `execute` call suspended on the
save chain rejects with the I/O error (there is no try/catch, logging or
retry in `scheduleSave`), `isSaving` is never cleared, and from then on no
sequence of further events — in particular no subsequent `execute` — ever
starts another durable write or changes the durable copy. -/
theorem save_failure_behavior (acts : List SAct) (q : List Nat)
    (rest : List (List Nat)) (more : List SAct) (s : StorageState)
    (hs : StorageService.runActs acts StorageService.stInit = s)
    (hr : s.running = q :: rest) :
    (StorageService.stepFail s).db = s.db ∧
    (StorageService.stepFail s).durable = s.durable ∧
    (StorageService.stepFail s).isSaving = true ∧
    (StorageService.stepFail s).failed = s.failed ++ s.blocked.toList ∧
    (StorageService.runActs more (StorageService.stepFail s)).durable
      = s.durable ∧
    (StorageService.runActs more (StorageService.stepFail s)).running
      = [] := by
  have hinv : StInv s := hs ▸ stInv_runActs acts _ stInv_init
  obtain ⟨h1, h2, h3, h4, h5, h6⟩ := hinv
  have hrest : rest = [] := by
    rw [hr] at h1
    simp only [List.length_cons] at h1
    exact List.length_eq_zero.mp (by omega)
  have hsv : s.isSaving = true := by
    cases hsv' : s.isSaving with
    | false =>
      have := (h2 hsv').1
      rw [hr] at this
      exact absurd this (by simp)
    | true => rfl
  subst hrest
  have e : StorageService.stepFail s
      = { s with running := [], blocked := none,
                 failed := s.failed ++ s.blocked.toList } := by
    simp only [StorageService.stepFail, hr]
  have hstuck := stuck_after_failure more (StorageService.stepFail s)
    (by rw [e]; exact hsv) (by rw [e])
  refine ⟨by rw [e], by rw [e], by rw [e]; exact hsv, by rw [e],
    hstuck.1.trans (by rw [e]), hstuck.2.1⟩

theorem save_failure_behavior_witness :
    (StorageService.stepFail
      (StorageService.runActs [SAct.exec 1, SAct.exec 2]
        StorageService.stInit)).db
      = (StorageService.runActs [SAct.exec 1, SAct.exec 2]
          StorageService.stInit).db ∧
    (StorageService.stepFail
      (StorageService.runActs [SAct.exec 1, SAct.exec 2]
        StorageService.stInit)).durable
      = (StorageService.runActs [SAct.exec 1, SAct.exec 2]
          StorageService.stInit).durable ∧
    (StorageService.stepFail
      (StorageService.runActs [SAct.exec 1, SAct.exec 2]
        StorageService.stInit)).isSaving = true ∧
    (StorageService.stepFail
      (StorageService.runActs [SAct.exec 1, SAct.exec 2]
        StorageService.stInit)).failed
      = (StorageService.runActs [SAct.exec 1, SAct.exec 2]
          StorageService.stInit).failed
        ++ (StorageService.runActs [SAct.exec 1, SAct.exec 2]
            StorageService.stInit).blocked.toList ∧
    (StorageService.runActs [SAct.exec 3]
      (StorageService.stepFail
        (StorageService.runActs [SAct.exec 1, SAct.exec 2]
          StorageService.stInit))).durable
      = (StorageService.runActs [SAct.exec 1, SAct.exec 2]
          StorageService.stInit).durable ∧
    (StorageService.runActs [SAct.exec 3]
      (StorageService.stepFail
        (StorageService.runActs [SAct.exec 1, SAct.exec 2]
          StorageService.stInit))).running = [] :=
  save_failure_behavior [SAct.exec 1, SAct.exec 2] [1] [] [SAct.exec 3] _
    rfl (by decide)

theorem foldl_applyOp_settings (ops : List DbOp) (st : PersistedState) :
    (ops.foldl applyOp st).settings = st.settings := by
  induction ops generalizing st with
  | nil => rfl
  | cons op ops ih =>
    rw [List.foldl_cons, ih]
    cases op <;> rfl

theorem foldl_insertNotes (rows : List NoteRow) (st : PersistedState) :
    (rows.map DbOp.insertNote).foldl applyOp st
      = { st with notes := st.notes ++ rows } := by
  induction rows generalizing st with
  | nil => simp
  | cons r rows ih =>
    rw [List.map_cons, List.foldl_cons, ih]
    simp [applyOp]

theorem foldl_insertEvents (rows : List EventRow) (st : PersistedState) :
    (rows.map DbOp.insertEvent).foldl applyOp st
      = { st with events := st.events ++ rows } := by
  induction rows generalizing st with
  | nil => simp
  | cons r rows ih =>
    rw [List.map_cons, List.foldl_cons, ih]
    simp [applyOp]

/-- C7: the destructive step of backup import is guarded by validation.  If
the import does not reach the success outcome — the PIN is rejected, the user
does not confirm, decryption of the artifact returns the failure indicator,
or JSON parsing of the decrypted payload throws — then no database or
credential operation at all is issued (in particular neither `DELETE FROM
notes` nor `DELETE FROM events`) and the persisted state, including the
pre-import notes and events rows, is returned unchanged. -/
theorem import_no_delete_before_validation (file : GBlob BackupPayload)
    (pin : String) (confirmed : Bool) (st : PersistedState)
    (hfail : (settingsController.importData file pin confirmed st).2.2
      ≠ ImportResult.imported) :
    (settingsController.importData file pin confirmed st).1 = st ∧
    (settingsController.importData file pin confirmed st).2.1 = [] ∧
    DbOp.deleteNotes ∉ (settingsController.importData file pin confirmed st).2.1 ∧
    DbOp.deleteEvents ∉ (settingsController.importData file pin confirmed st).2.1 := by
  by_cases h1 : pin.length ≠ 4
  · simp [settingsController.importData, h1]
  · by_cases h2 : confirmed = false
    · simp [settingsController.importData, h1, h2]
    · have h2' : confirmed = true := by
        cases confirmed with
        | false => exact absurd rfl h2
        | true => rfl
      cases hdec : CryptoService.decrypt file
          (CryptoService.deriveKeyFromPIN pin (st.user_salt.getD [])) with
      | none => simp [settingsController.importData, h1, h2', hdec]
      | some payload =>
        cases payload with
        | raw msg => simp [settingsController.importData, h1, h2', hdec]
        | json b =>
          exfalso
          apply hfail
          simp [settingsController.importData, h1, h2', hdec]

theorem import_no_delete_before_validation_witness :
    (settingsController.importData
      (CryptoService.encrypt (BackupPayload.raw "garbage")
        (CryptoService.deriveKeyFromPIN "9999" [7]) [5])
      "1234" true preImportState).1 = preImportState ∧
    (settingsController.importData
      (CryptoService.encrypt (BackupPayload.raw "garbage")
        (CryptoService.deriveKeyFromPIN "9999" [7]) [5])
      "1234" true preImportState).2.1 = [] ∧
    DbOp.deleteNotes ∉ (settingsController.importData
      (CryptoService.encrypt (BackupPayload.raw "garbage")
        (CryptoService.deriveKeyFromPIN "9999" [7]) [5])
      "1234" true preImportState).2.1 ∧
    DbOp.deleteEvents ∉ (settingsController.importData
      (CryptoService.encrypt (BackupPayload.raw "garbage")
        (CryptoService.deriveKeyFromPIN "9999" [7]) [5])
      "1234" true preImportState).2.1 :=
  import_no_delete_before_validation _ "1234" true preImportState (by decide)

/-- C10: a successful backup import replaces exactly the notes table, the
events table and the two persisted credential entries with the artifact's
values; the `settings` table rows are returned completely unchanged (no
issued operation touches them). -/
theorem importData_settings_frame (file : GBlob BackupPayload) (pin : String)
    (st : PersistedState) (b : BackupData)
    (hpin : pin.length = 4)
    (hdec : CryptoService.decrypt file
      (CryptoService.deriveKeyFromPIN pin (st.user_salt.getD []))
      = some (BackupPayload.json b)) :
    (settingsController.importData file pin true st).1
      = { st with notes := b.data_notes, events := b.data_events,
                  user_salt := some b.salt,
                  verification_data := some b.verificationData } ∧
    (settingsController.importData file pin true st).2.2
      = ImportResult.imported ∧
    (settingsController.importData file pin true st).1.settings
      = st.settings := by
  have h1 : ¬pin.length ≠ 4 := by simp [hpin]
  have hmain : (settingsController.importData file pin true st).1
      = { st with notes := b.data_notes, events := b.data_events,
                  user_salt := some b.salt,
                  verification_data := some b.verificationData } := by
    simp only [settingsController.importData, h1, if_false, hdec]
    rw [List.foldl_append, List.foldl_append, List.foldl_append,
      foldl_insertNotes, foldl_insertEvents]
    rfl
  refine ⟨hmain, ?_, by rw [hmain]⟩
  simp [settingsController.importData, h1, hdec]

theorem importData_settings_frame_witness :
    (settingsController.importData
      (CryptoService.encrypt (BackupPayload.json sampleBackup)
        (CryptoService.deriveKeyFromPIN "1234" [7]) [6])
      "1234" true preImportState).1
      = { preImportState with
            notes := sampleBackup.data_notes,
            events := sampleBackup.data_events,
            user_salt := some sampleBackup.salt,
            verification_data := some sampleBackup.verificationData } ∧
    (settingsController.importData
      (CryptoService.encrypt (BackupPayload.json sampleBackup)
        (CryptoService.deriveKeyFromPIN "1234" [7]) [6])
      "1234" true preImportState).2.2 = ImportResult.imported ∧
    (settingsController.importData
      (CryptoService.encrypt (BackupPayload.json sampleBackup)
        (CryptoService.deriveKeyFromPIN "1234" [7]) [6])
      "1234" true preImportState).1.settings = preImportState.settings :=
  importData_settings_frame _ "1234" preImportState sampleBackup
    (by decide) (by decide)
